import Mathlib

/-!
Verification of the jason-checker-backend ticket-monitoring service.

The development shallowly embeds the JavaScript source:

* `detectChanges` (src/unnamed/part_001 lines 134-174; an identical copy lives
  in the controller file, src/testPuppeteer.js lines 154-194): the pure diff
  over two network-payload snapshots.  JS `Map` objects built with
  `new Map(arr.map(t => [t.sectionRow, t]))` are embedded as association lists
  with JS-`Map` insertion/overwrite semantics (`mapSet`): first insertion fixes
  the position of a key, later insertions overwrite the value in place.
* `updateChanges` (src/unnamed/part_001 lines 81-87): the bounded change log.
* `fetchNetworkDataModel` (src/src/services/ticketmaster.service.js lines
  193-229): the network capture with its listener-detach accounting.
* `gateLoop` / `fetchAvailableTicketsModel` (src/src/services/
  ticketmaster.service.js lines 231-578): the fetch pipeline over an abstract
  `World` that supplies the outcome of each browser-level effect, together with
  the trace of effects the call performs.

Machine details that matter for faithfulness and are relied on below:
the service file is an ES module (it uses `import`/`export` and
`import.meta.url`), hence strict mode; reading the never-declared identifier
`pageContent` (line 397) raises a `ReferenceError`, and so does assigning it
(line 408).  String comparison in JS `Map` keys is SameValueZero, i.e. plain
string equality.
-/

namespace JasonChecker

/-- One extracted ticket listing (service file lines 495-509): each DOM item is
mapped to `{sectionRow, price, type, timestamp}`, all strings (missing
sub-fields default to `""`). -/
structure Listing where
  sectionRow : String
  price : String
  type : String
  timestamp : String
deriving DecidableEq

/-- A network-payload snapshot as consumed by `detectChanges`: an object that
either carries a `tickets` array or lacks it (`none` covers
`undefined`/absent, which is falsy in the `oldData.tickets && newData.tickets`
guard at line 140). -/
structure Snapshot where
  tickets : Option (List Listing)
deriving DecidableEq

/-- A change record pushed by `detectChanges`:
`{type: "PRICE_CHANGE", details: {sectionRow, oldPrice, newPrice}}` or
`{type: "NEW_SECTION", details: {sectionRow, price}}`. -/
inductive ChangeEvent where
  | priceChange (sectionRow oldPrice newPrice : String)
  | newSection (sectionRow price : String)
deriving DecidableEq

/-- JS `Map.prototype.set` on an association list: if the key is present the
value is overwritten in place (the key keeps its original position), otherwise
the pair is appended.  This is exactly the insertion-order semantics of
`new Map(...)`. -/
def mapSet (m : List (String × Listing)) (k : String) (v : Listing) :
    List (String × Listing) :=
  if m.any (fun p => p.1 == k) then
    m.map (fun p => if p.1 == k then (k, v) else p)
  else
    m ++ [(k, v)]

/-- JS `Map.prototype.get` (also reused for the service's plain-object field
lookups): first entry with the key, if any. -/
def jsMapGet {α : Type} (m : List (String × α)) (k : String) : Option α :=
  (m.find? (fun p => p.1 == k)).map (fun p => p.2)

/-- `new Map(arr.map(t => [t.sectionRow, t]))` (lines 141-142): entries are
inserted in array order with `mapSet` overwrite semantics. -/
def buildTicketMap (ts : List Listing) : List (String × Listing) :=
  ts.foldl (fun m t => mapSet m t.sectionRow t) []

/-- `detectChanges(oldData, newData)` (src/unnamed/part_001 lines 134-174).
`none` for `oldData` models the falsy `!oldData` guard (line 135).  The two
`for (const [sectionRow, newTicket] of newTickets)` loops push into the same
fresh `changes` array, so the result is the first loop's records followed by
the second loop's records, each iterating the new `Map` in insertion order. -/
def detectChanges (oldData : Option Snapshot) (newData : Snapshot) :
    List ChangeEvent :=
  match oldData with
  | none => []
  | some od =>
    match od.tickets, newData.tickets with
    | some oldArr, some newArr =>
      let oldTickets := buildTicketMap oldArr
      let newTickets := buildTicketMap newArr
      (newTickets.filterMap (fun p =>
        match jsMapGet oldTickets p.1 with
        | some ot =>
          if ot.price != p.2.price then
            some (ChangeEvent.priceChange p.1 ot.price p.2.price)
          else none
        | none => none))
      ++
      (newTickets.filterMap (fun p =>
        if (jsMapGet oldTickets p.1).isSome then none
        else some (ChangeEvent.newSection p.1 p.2.price)))
    | _, _ => []

/-! ### Specification-side vocabulary for the diff

The spec describes the diff in terms of the new snapshot's key insertion
order (first occurrence of each `sectionRow`) and last-write-wins lookups.
These definitions follow the spec's words, independently of `buildTicketMap`,
so that the claim "implementation = spec" is a real equivalence. -/

/-- First-occurrence deduplication: the key order a JS `Map` ends up with. -/
def firstDedup : List String → List String
  | [] => []
  | k :: ks => k :: firstDedup (ks.filter (fun x => !(x == k)))
termination_by l => l.length
decreasing_by
  simp only [List.length_cons]
  exact Nat.lt_succ_of_le (List.length_filter_le _ _)

/-- The last listing in `ts` carrying the given `sectionRow` (the
last-write-wins value the spec assigns to a lookup key). -/
def lastWith (ts : List Listing) (k : String) : Option Listing :=
  ts.reverse.find? (fun t => t.sectionRow == k)

/-- The diff as the spec words it: over the new snapshot's keys in insertion
order, one `PriceChange` per key present in both lookups whose price differs,
then one `NewSection` per key present only in the new lookup, with
last-write-wins lookups on both sides. -/
def diffSpec (oldArr newArr : List Listing) : List ChangeEvent :=
  ((firstDedup (newArr.map (fun t => t.sectionRow))).filterMap (fun k =>
    match lastWith oldArr k, lastWith newArr k with
    | some a, some b =>
      if a.price != b.price then some (ChangeEvent.priceChange k a.price b.price)
      else none
    | _, _ => none))
  ++
  ((firstDedup (newArr.map (fun t => t.sectionRow))).filterMap (fun k =>
    match lastWith oldArr k, lastWith newArr k with
    | none, some b => some (ChangeEvent.newSection k b.price)
    | _, _ => none))

/-! ### Association-list lemmas relating `mapSet`/`jsMapGet` to the spec's
last-write-wins, insertion-ordered description of a JS `Map`. -/

theorem jsMapGet_nil {α : Type} (k : String) :
    jsMapGet ([] : List (String × α)) k = none :=
  rfl

theorem jsMapGet_cons {α : Type} (p : String × α) (m : List (String × α)) (k : String) :
    jsMapGet (p :: m) k = if p.1 = k then some p.2 else jsMapGet m k := by
  by_cases h : p.1 = k
  · rw [if_pos h]
    simp only [jsMapGet]
    rw [List.find?_cons_of_pos _ (by simp [h])]
    rfl
  · rw [if_neg h]
    simp only [jsMapGet]
    rw [List.find?_cons_of_neg _ (by simp [h])]

theorem jsMapGet_append {α : Type} (m₁ m₂ : List (String × α)) (k : String) :
    jsMapGet (m₁ ++ m₂) k = (jsMapGet m₁ k).or (jsMapGet m₂ k) := by
  simp only [jsMapGet, List.find?_append]
  cases m₁.find? (fun p => p.1 == k) <;> simp [Option.or]

theorem jsMapGet_isSome {α : Type} (m : List (String × α)) (k : String) :
    (jsMapGet m k).isSome = m.any (fun p => p.1 == k) := by
  induction m with
  | nil => rfl
  | cons p m ih => rw [jsMapGet_cons]; by_cases h : p.1 = k <;> simp [h, ih]

theorem jsMapGet_map_update (k0 : String) (v : Listing)
    (m : List (String × Listing)) (k : String) :
    jsMapGet (m.map (fun p => if p.1 == k0 then (k0, v) else p)) k =
      if k = k0 then (jsMapGet m k0).map (fun _ => v) else jsMapGet m k := by
  induction m with
  | nil => by_cases hk : k = k0 <;> simp [jsMapGet, hk]
  | cons p m ih =>
    simp only [beq_iff_eq] at ih ⊢
    simp only [List.map_cons, jsMapGet_cons]
    by_cases hp : p.1 = k0
    · by_cases hk : k = k0
      · subst hk; simp [hp, ih]
      · simp [hp, hk, ih, show k0 ≠ k from fun h => hk h.symm,
          show p.1 ≠ k from fun h => hk (hp.symm.trans h).symm]
    · by_cases hk : k = k0
      · subst hk; simp [hp, ih]
      · simp [hp, hk, ih]

theorem jsMapGet_mapSet (m : List (String × Listing)) (k0 k : String) (v : Listing) :
    jsMapGet (mapSet m k0 v) k = if k = k0 then some v else jsMapGet m k := by
  unfold mapSet
  by_cases hmem : m.any (fun p => p.1 == k0)
  · rw [if_pos hmem, jsMapGet_map_update]
    by_cases hk : k = k0
    · have hs : (jsMapGet m k0).isSome := by rw [jsMapGet_isSome]; exact hmem
      cases h : jsMapGet m k0 with
      | none => rw [h] at hs; simp at hs
      | some w => simp [hk, h]
    · simp [hk]
  · rw [if_neg hmem, jsMapGet_append]
    have hnone : jsMapGet m k0 = none := by
      have hiss := jsMapGet_isSome m k0
      rw [Bool.eq_false_iff.mpr hmem] at hiss
      exact Option.not_isSome_iff_eq_none.mp (by simp [hiss])
    by_cases hk : k = k0
    · subst hk
      simp [hnone, jsMapGet_cons, jsMapGet_nil]
    · rw [if_neg hk, jsMapGet_cons]
      rw [if_neg (fun h : k0 = k => hk h.symm)]
      simp [jsMapGet_nil, Option.or_none]

theorem lastWith_concat (ts : List Listing) (t : Listing) (k : String) :
    lastWith (ts ++ [t]) k = if t.sectionRow = k then some t else lastWith ts k := by
  unfold lastWith
  rw [List.reverse_append]
  simp only [List.reverse_cons, List.reverse_nil, List.nil_append, List.singleton_append]
  by_cases h : t.sectionRow = k
  · rw [if_pos h, List.find?_cons_of_pos _ (by simp [h])]
  · rw [if_neg h, List.find?_cons_of_neg _ (by simp [h])]

theorem lastWith_isSome_of_mem (ts : List Listing) (k : String)
    (h : k ∈ ts.map (fun t => t.sectionRow)) : (lastWith ts k).isSome := by
  rcases List.mem_map.mp h with ⟨t, ht, hk⟩
  exact List.find?_isSome.mpr ⟨t, List.mem_reverse.mpr ht, by simp [beq_iff_eq, hk]⟩

theorem buildTicketMap_concat (ts : List Listing) (t : Listing) :
    buildTicketMap (ts ++ [t]) = mapSet (buildTicketMap ts) t.sectionRow t := by
  simp [buildTicketMap, List.foldl_append]

/-- The lookup built by `detectChanges` is last-write-wins: looking up any
`sectionRow` in the `Map` yields the last listing of the array that carries
it. -/
theorem jsMapGet_buildTicketMap (ts : List Listing) (k : String) :
    jsMapGet (buildTicketMap ts) k = lastWith ts k := by
  induction ts using List.reverseRecOn with
  | nil => simp [buildTicketMap, jsMapGet, lastWith]
  | append_singleton ts t ih =>
    rw [buildTicketMap_concat, jsMapGet_mapSet, lastWith_concat]
    by_cases h : t.sectionRow = k
    · simp [h]
    · simp [h, Ne.symm h, ih]

theorem mem_firstDedup (l : List String) (k : String) : k ∈ firstDedup l ↔ k ∈ l := by
  induction l using firstDedup.induct with
  | case1 => simp [firstDedup]
  | case2 x xs ih =>
    rw [firstDedup]
    by_cases h : k = x
    · simp [h]
    · simp only [List.mem_cons, ih, List.mem_filter]
      simp [h]

theorem firstDedup_concat (l : List String) (k0 : String) :
    firstDedup (l ++ [k0]) =
      if k0 ∈ l then firstDedup l else firstDedup l ++ [k0] := by
  induction l using firstDedup.induct with
  | case1 => simp [firstDedup]
  | case2 x xs ih =>
    rw [List.cons_append, firstDedup, List.filter_append]
    by_cases h : k0 = x
    · subst h
      simp only [List.filter_cons, List.filter_nil]
      rw [if_neg (by simp)]
      simp only [List.append_nil]
      rw [if_pos (List.mem_cons_self _ _), firstDedup]
    · simp only [List.filter_cons, List.filter_nil]
      rw [if_pos (by simp [h])]
      rw [ih]
      by_cases hmem : k0 ∈ xs
      · rw [if_pos (by simp [List.mem_filter, hmem, h]),
          if_pos (List.mem_cons_of_mem _ hmem), firstDedup]
      · rw [if_neg (by simp [List.mem_filter, hmem]),
          if_neg (by simp [List.mem_cons, hmem, h]), firstDedup, List.cons_append]

/-- The spec's view of the lookup `detectChanges` builds: the new snapshot's
keys in first-occurrence (insertion) order, each bound to its last
occurrence's listing. -/
def specMap (ts : List Listing) : List (String × Listing) :=
  (firstDedup (ts.map (fun t => t.sectionRow))).filterMap
    (fun k => (lastWith ts k).map (fun v => (k, v)))

theorem specMap_unfold (ts : List Listing) :
    specMap ts = (firstDedup (ts.map (fun t => t.sectionRow))).filterMap
      (fun k => (lastWith ts k).map (fun v => (k, v))) :=
  rfl

theorem specMap_key_mem (ts : List Listing) (p : String × Listing)
    (hp : p ∈ specMap ts) : p.1 ∈ ts.map (fun t => t.sectionRow) := by
  rcases List.mem_filterMap.mp hp with ⟨k, hk, hmap⟩
  rcases Option.map_eq_some'.mp hmap with ⟨v, _, hpv⟩
  rw [← hpv]
  exact (mem_firstDedup _ _).mp hk

theorem specMap_any_true (ts : List Listing) (k : String)
    (h : k ∈ ts.map (fun t => t.sectionRow)) :
    (specMap ts).any (fun p => p.1 == k) = true := by
  have hs := lastWith_isSome_of_mem ts k h
  cases hv : lastWith ts k with
  | none => rw [hv] at hs; simp at hs
  | some v =>
    refine List.any_eq_true.mpr ⟨(k, v), ?_, by simp⟩
    exact List.mem_filterMap.mpr ⟨k, (mem_firstDedup _ _).mpr h, by simp [hv]⟩

theorem specMap_any_false (ts : List Listing) (k : String)
    (h : k ∉ ts.map (fun t => t.sectionRow)) :
    ¬ ((specMap ts).any (fun p => p.1 == k) = true) := by
  intro hany
  rcases List.any_eq_true.mp hany with ⟨p, hp, hpk⟩
  exact h (beq_iff_eq.mp hpk ▸ specMap_key_mem ts p hp)

theorem specMap_concat (ts : List Listing) (t : Listing) :
    specMap (ts ++ [t]) = mapSet (specMap ts) t.sectionRow t := by
  rw [specMap_unfold (ts ++ [t]), List.map_append, List.map_cons, List.map_nil,
    firstDedup_concat]
  by_cases hmem : t.sectionRow ∈ ts.map (fun t => t.sectionRow)
  · rw [if_pos hmem]
    unfold mapSet
    rw [if_pos (specMap_any_true ts _ hmem), specMap_unfold ts, List.map_filterMap]
    apply List.filterMap_congr
    intro k hk
    rw [lastWith_concat]
    by_cases hkt : t.sectionRow = k
    · rw [if_pos hkt]
      have hs := lastWith_isSome_of_mem ts k (hkt ▸ hmem)
      cases hv : lastWith ts k with
      | none => rw [hv] at hs; simp at hs
      | some v => simp [hv, hkt]
    · rw [if_neg hkt]
      cases hv : lastWith ts k <;>
        simp [hv, show ¬(k = t.sectionRow) from fun h => hkt h.symm]
  · rw [if_neg hmem]
    unfold mapSet
    rw [if_neg (specMap_any_false ts _ hmem), List.filterMap_append]
    congr 1
    · rw [specMap_unfold ts]
      apply List.filterMap_congr
      intro k hk
      rw [lastWith_concat, if_neg (fun h : t.sectionRow = k =>
        hmem (by rw [h]; exact (mem_firstDedup _ _).mp hk))]
    · simp [lastWith_concat]

/-- The `Map` built at lines 141-142 is exactly the spec's insertion-ordered,
last-write-wins lookup. -/
theorem buildTicketMap_eq_spec (ts : List Listing) : buildTicketMap ts = specMap ts := by
  induction ts using List.reverseRecOn with
  | nil => simp [buildTicketMap, specMap, firstDedup]
  | append_singleton ts t ih => rw [buildTicketMap_concat, ih, specMap_concat]

theorem detectChanges_some_some (oldArr newArr : List Listing) :
    detectChanges (some ⟨some oldArr⟩) ⟨some newArr⟩ =
      ((buildTicketMap newArr).filterMap (fun p =>
        match jsMapGet (buildTicketMap oldArr) p.1 with
        | some ot =>
          if ot.price != p.2.price then
            some (ChangeEvent.priceChange p.1 ot.price p.2.price)
          else none
        | none => none))
      ++
      ((buildTicketMap newArr).filterMap (fun p =>
        if (jsMapGet (buildTicketMap oldArr) p.1).isSome then none
        else some (ChangeEvent.newSection p.1 p.2.price))) :=
  rfl

theorem detectChanges_eq_diffSpec (oldArr newArr : List Listing) :
    detectChanges (some ⟨some oldArr⟩) ⟨some newArr⟩ = diffSpec oldArr newArr := by
  rw [detectChanges_some_some, buildTicketMap_eq_spec newArr, specMap_unfold,
    List.filterMap_filterMap, List.filterMap_filterMap]
  unfold diffSpec
  congr 1
  · apply List.filterMap_congr
    intro k _
    cases hb : lastWith newArr k with
    | none => cases ha : lastWith oldArr k <;> simp [ha, hb]
    | some b =>
      cases ha : lastWith oldArr k <;>
        simp [ha, hb, jsMapGet_buildTicketMap]
  · apply List.filterMap_congr
    intro k _
    cases hb : lastWith newArr k with
    | none => cases ha : lastWith oldArr k <;> simp [ha, hb]
    | some b =>
      cases ha : lastWith oldArr k <;>
        simp [ha, hb, jsMapGet_buildTicketMap]

/-- C2: for snapshots both carrying ticket arrays, the diff is exactly one
`PriceChange` (with `oldPrice`/`newPrice` the last-write-wins prices from the
old/new lookup) per key present in both lookups whose price differs, followed
by exactly one `NewSection` (with the new lookup's price) per key present
only in the new lookup; each group iterates in the new snapshot's insertion
order and nothing else is emitted — stated as equality with `diffSpec`, the
record list built literally from that description. -/
theorem c2_diff_shape (oldArr newArr : List Listing) :
    detectChanges (some ⟨some oldArr⟩) ⟨some newArr⟩ = diffSpec oldArr newArr :=
  detectChanges_eq_diffSpec oldArr newArr

/-- C8: the lookup the diff builds from `sectionRow` to listing keeps the last
occurrence on duplicate keys — looking up any key in the `Map` built at lines
140-142 (used for both the old and the new snapshot) yields the listing of
that key's last occurrence in the array. -/
theorem c8_lookup_last_write_wins (ts : List Listing) (k : String) :
    jsMapGet (buildTicketMap ts) k = lastWith ts k :=
  jsMapGet_buildTicketMap ts k

/-- C10: with a non-null `oldData`, the diff is empty whenever either payload
lacks a `tickets` array (line 140's `oldData.tickets && newData.tickets`
guard), so opaque network payloads without a `tickets` field never produce
change events. -/
theorem c10_no_tickets_vacuous (nd : Snapshot) (oldArr : List Listing) :
    detectChanges (some ⟨none⟩) nd = [] ∧
    detectChanges (some ⟨some oldArr⟩) ⟨none⟩ = [] := by
  constructor
  · cases h : nd.tickets <;> simp [detectChanges, h]
  · rfl

/-! ### The bounded change log (C5)

`pollTickets` (src/unnamed/part_001 lines 76-89) and the controller's
`fetchAndUpdateTickets` (src/testPuppeteer.js lines 113-124) run the same
update step on a monitored endpoint's `changes` list:

    if (changes.length > 0) {
      ticketUrl.changes.push(...changes);
      if (ticketUrl.changes.length > 100) {
        ticketUrl.changes = ticketUrl.changes.slice(-100);
      }
    }

`Array.prototype.slice(-100)` on a longer array keeps the final 100
elements, i.e. drops `length - 100` from the front. -/

def updateChanges (prev newChanges : List ChangeEvent) : List ChangeEvent :=
  if newChanges.length > 0 then
    let pushed := prev ++ newChanges
    if pushed.length > 100 then pushed.drop (pushed.length - 100) else pushed
  else prev

theorem updateChanges_length_le (prev cs : List ChangeEvent)
    (h : prev.length ≤ 100) : (updateChanges prev cs).length ≤ 100 := by
  simp only [updateChanges]
  by_cases h1 : cs.length > 0
  · rw [if_pos h1]
    by_cases h2 : (prev ++ cs).length > 100
    · rw [if_pos h2, List.length_drop]
      omega
    · rw [if_neg h2]
      omega
  · rw [if_neg h1]
    exact h

/-- C5: across any sequence of update steps starting from a `changes` list
within the cap, the list never exceeds 100 entries, and a non-empty append
yields exactly the most recent `min (old + new) 100` records (a suffix of
`prev ++ changes`: oldest entries are evicted first). -/
theorem c5_changes_bounded (init : List ChangeEvent)
    (css : List (List ChangeEvent)) (hinit : init.length ≤ 100) :
    ((css.foldl updateChanges init).length ≤ 100) ∧
    (∀ prev cs : List ChangeEvent, cs ≠ [] →
      updateChanges prev cs <:+ prev ++ cs ∧
      (updateChanges prev cs).length = min (prev.length + cs.length) 100) := by
  constructor
  · induction css generalizing init with
    | nil => exact hinit
    | cons c css ih => exact ih _ (updateChanges_length_le _ _ hinit)
  · intro prev cs hcs
    have hlen : cs.length > 0 := List.length_pos.mpr hcs
    constructor
    · simp only [updateChanges, if_pos hlen]
      by_cases h2 : (prev ++ cs).length > 100
      · rw [if_pos h2]
        exact List.drop_suffix _ _
      · rw [if_neg h2]
    · simp only [updateChanges, if_pos hlen]
      by_cases h2 : (prev ++ cs).length > 100
      · rw [if_pos h2, List.length_drop]
        rw [List.length_append] at h2 ⊢
        omega
      · rw [if_neg h2]
        rw [List.length_append] at h2 ⊢
        omega

/-- Concrete instance of `c5_changes_bounded`: 150 records appended to an
empty log leave at most 100; appending two records to a 99-record log keeps a
suffix of exactly 100. -/
theorem c5_changes_bounded_witness :
    (([List.replicate 150 (ChangeEvent.newSection "s" "p")].foldl
        updateChanges []).length ≤ 100) ∧
    (updateChanges (List.replicate 99 (ChangeEvent.newSection "s" "p"))
        [ChangeEvent.newSection "a" "b", ChangeEvent.newSection "c" "d"] <:+
      List.replicate 99 (ChangeEvent.newSection "s" "p") ++
        [ChangeEvent.newSection "a" "b", ChangeEvent.newSection "c" "d"]) ∧
    ((updateChanges (List.replicate 99 (ChangeEvent.newSection "s" "p"))
        [ChangeEvent.newSection "a" "b", ChangeEvent.newSection "c" "d"]).length =
      min ((List.replicate 99 (ChangeEvent.newSection "s" "p")).length + 2) 100) :=
  ⟨(c5_changes_bounded [] [List.replicate 150 (ChangeEvent.newSection "s" "p")]
      (by simp)).1,
   ((c5_changes_bounded [] [] (by simp)).2 _ _ (by simp)).1,
   ((c5_changes_bounded [] [] (by simp)).2 _ _ (by simp)).2⟩

/-! ### Heap model: purity of the diff (C7)

JS snapshots are mutable object graphs, so "neither input is mutated" is a
statement about a store.  `detectChangesHeap` re-traces `detectChanges`
against an explicit store: a snapshot object holds an optional reference to an
array object, which holds references to listing objects.  Every operation the
source performs on the inputs (the `!oldData` test, the `oldData.tickets`
truthiness test at line 140, the element dereferences inside
`arr.map(t => [t.sectionRow, t])`, the `Map` lookups in the loops) is a
field *read*; the `changes` array and the pushed records are fresh values
returned to the caller, and the source contains no assignment through any
input reference.  The store is therefore threaded through unchanged. -/

/-- A heap object: a ticket listing, an array of listing references, or a
snapshot object whose `tickets` field is absent or an array reference. -/
inductive HObj where
  | listingObj (sectionRow price ty ts : String)
  | arrObj (elems : List Nat)
  | snapObj (tickets : Option Nat)
deriving DecidableEq

/-- The store: addresses to objects. -/
def Store : Type := List (Nat × HObj)

/-- Dereference an address. -/
def hfind (σ : Store) (a : Nat) : Option HObj :=
  (List.find? (fun p => p.1 == a) σ).map (fun p => p.2)

/-- Read a listing object's fields. -/
def readListing (σ : Store) (a : Nat) : Option Listing :=
  match hfind σ a with
  | some (HObj.listingObj s p ty ts) => some ⟨s, p, ty, ts⟩
  | _ => none

/-- Read a snapshot object and, through its `tickets` reference, the whole
ticket array (the reads lines 140-142 perform). -/
def readSnap (σ : Store) (a : Nat) : Option Snapshot :=
  match hfind σ a with
  | some (HObj.snapObj none) => some ⟨none⟩
  | some (HObj.snapObj (some arrA)) =>
    match hfind σ arrA with
    | some (HObj.arrObj elems) =>
      match elems.mapM (readListing σ) with
      | some ls => some ⟨some ls⟩
      | none => none
    | _ => none
  | _ => none

/-- `detectChanges` against the store: reads the two snapshots (a `null`
`oldData` is the `none` address) and computes the diff on the read values;
the store comes back untouched because the source never writes through an
input reference.  Dangling references (impossible in JS) yield the empty
diff. -/
def detectChangesHeap (σ : Store) (oldAddr : Option Nat) (newAddr : Nat) :
    Store × List ChangeEvent :=
  match oldAddr with
  | none => (σ, [])
  | some oa =>
    match readSnap σ oa, readSnap σ newAddr with
    | some od, some nd => (σ, detectChanges (some od) nd)
    | _, _ => (σ, [])

/-- C7: the diff is pure — after the call the store (hence both input
snapshots, their ticket arrays and the listings within them) is unchanged,
and the produced records agree with the pure `detectChanges` function on the
values read from the store. -/
theorem c7_diff_pure (σ : Store) (oldAddr : Option Nat) (newAddr : Nat) :
    ((detectChangesHeap σ oldAddr newAddr).1 = σ) ∧
    (∀ a od nd, oldAddr = some a → readSnap σ a = some od →
      readSnap σ newAddr = some nd →
      (detectChangesHeap σ oldAddr newAddr).2 = detectChanges (some od) nd) := by
  constructor
  · cases oldAddr with
    | none => rfl
    | some oa =>
      simp only [detectChangesHeap]
      cases readSnap σ oa <;> cases readSnap σ newAddr <;> rfl
  · intro a od nd ha hod hnd
    subst ha
    simp [detectChangesHeap, hod, hnd]

/-- A concrete store: old snapshot at 0 (one listing), new snapshot at 3
(the same listing object plus a new one — the arrays even share a listing
reference). -/
def storeExample : Store :=
  [(0, HObj.snapObj (some 1)), (1, HObj.arrObj [2]),
   (2, HObj.listingObj "Sec 101 Row A" "50" "" ""),
   (3, HObj.snapObj (some 4)), (4, HObj.arrObj [2, 5]),
   (5, HObj.listingObj "Sec 102 Row B" "40" "" "")]

/-- Concrete instance of `c7_diff_pure` on `storeExample`. -/
theorem c7_diff_pure_witness :
    (detectChangesHeap storeExample (some 0) 3).1 = storeExample ∧
    (detectChangesHeap storeExample (some 0) 3).2 =
      detectChanges (some ⟨some [⟨"Sec 101 Row A", "50", "", ""⟩]⟩)
        ⟨some [⟨"Sec 101 Row A", "50", "", ""⟩, ⟨"Sec 102 Row B", "40", "", ""⟩]⟩ :=
  ⟨(c7_diff_pure storeExample (some 0) 3).1,
   (c7_diff_pure storeExample (some 0) 3).2 0 _ _ rfl rfl rfl⟩

/-! ### Network capture (C4)

`fetchNetworkData(page, eventId)` (service lines 193-229) registers
`responseHandler` with `page.on("response", ...)` and arms a 10 s timer.  The
handler resolves the promise with the first response whose URL contains the
event id, whose request is an `xhr`, and whose body parses as JSON to a
truthy `typeof === "object"` value; on that path it only calls
`clearTimeout` — it never calls `page.off`.  Only the timer's callback (line
224) detaches the listener before resolving `null`. -/

/-- A JSON-like value (numbers as integers; numeric precision is irrelevant
to every property below). -/
inductive JsVal where
  | null
  | bool (b : Bool)
  | num (n : Int)
  | str (s : String)
  | arr (elems : List JsVal)
  | obj (fields : List (String × JsVal))

/-- Line 207's `json && typeof json === "object"`: `typeof` is `"object"`
for objects, arrays and `null`, and `null` is falsy, so the guard accepts
exactly objects and arrays. -/
def jsTruthyObject : JsVal → Bool
  | JsVal.obj _ => true
  | JsVal.arr _ => true
  | _ => false

/-- `needle` is a prefix of the character list. -/
def startsWithChars : List Char → List Char → Bool
  | [], _ => true
  | _ :: _, [] => false
  | a :: as, b :: bs => a == b && startsWithChars as bs

/-- Substring search over character lists. -/
def hasSubChars (needle : List Char) : List Char → Bool
  | [] => needle.isEmpty
  | c :: cs => startsWithChars needle (c :: cs) || hasSubChars needle cs

/-- JS `String.prototype.includes`. -/
def containsSubstr (hay needle : String) : Bool :=
  hasSubChars needle.data hay.data

/-- One response observed while the capture is armed: its URL, the
originating request's resource type, and its body as JSON (`none` when
`response.json()` throws, which the handler ignores). -/
structure Resp where
  url : String
  resourceType : String
  body : Option JsVal

/-- The handler's match test (lines 200-208): URL contains the event id, the
request is an `xhr`, and the body is a truthy JSON object. -/
def respMatches (eventId : String) (r : Resp) : Option JsVal :=
  if containsSubstr r.url eventId && (r.resourceType == "xhr") then
    match r.body with
    | some j => if jsTruthyObject j then some j else none
    | none => none
  else none

/-- The first matching response among those arriving inside the window (a
promise resolves once, so later matches are ignored). -/
def runCapture (eventId : String) : List Resp → Option JsVal
  | [] => none
  | r :: rs =>
    match respMatches eventId r with
    | some j => some j
    | none => runCapture eventId rs

/-- `fetchNetworkData`: given the responses that arrive before the 10 s
timer, the resolved value together with the number of
`page.off("response", responseHandler)` calls performed.  A match resolves
the payload and cancels the timer but leaves the listener attached (0
detaches); only the timeout path detaches (exactly once) and resolves
`null`. -/
def fetchNetworkDataModel (eventId : String) (window : List Resp) :
    Option JsVal × Nat :=
  match runCapture eventId window with
  | some j => (some j, 0)
  | none => (none, 1)

theorem runCapture_eq_head_filterMap (eventId : String) (window : List Resp) :
    runCapture eventId window = (window.filterMap (respMatches eventId)).head? := by
  induction window with
  | nil => rfl
  | cons r rs ih =>
    rw [runCapture, List.filterMap_cons]
    cases respMatches eventId r <;> simp [ih]

/-- C4 (amended): the capture resolves with the first matching JSON payload
of the window when one exists — cancelling the timer but performing zero
listener detaches — and otherwise the timeout path performs exactly one
detach and resolves `null`. -/
theorem c4_detach_behavior (eventId : String) (window : List Resp) :
    fetchNetworkDataModel eventId window =
      ((window.filterMap (respMatches eventId)).head?,
        if (window.filterMap (respMatches eventId)).head?.isSome then 0 else 1) := by
  unfold fetchNetworkDataModel
  rw [runCapture_eq_head_filterMap]
  cases h : (window.filterMap (respMatches eventId)).head? <;> simp

/-- C4 counterexample: a matching `xhr` response resolves the capture with
zero `page.off` calls, refuting "the listener is detached exactly once
regardless of outcome". -/
theorem c4_detach_counterexample :
    (fetchNetworkDataModel "1E00625CD153457B"
        [⟨"https://services.ticketmaster.com/api/1E00625CD153457B/offers",
          "xhr", some (JsVal.obj [("offers", JsVal.arr [])])⟩]).2 = 0 ∧
    (0 : Nat) ≠ 1 :=
  ⟨rfl, by omega⟩

/-! ### The fetch pipeline: `fetchAvailableTickets` (service lines 231-578)

The pipeline is embedded as a deterministic function of an abstract `World`
that records the outcome of every browser-level interaction: whether each
`page.goto` attempt succeeds, which adversarial state the page shows at each
bot-gate iteration (once its loading wait resolves), whether the consent
button appears within its timeout, and the page URL at the validation step.
The function returns the thrown error or returned value together with the
trace of externally visible effects, so short-circuit claims ("no
navigation, no extraction, no diagnostic captures") are statements about the
trace.

Crucial control-flow fact, mirrored by the model: the identifier
`pageContent` is never declared in the function.  The file is an ES module,
so the function body is strict-mode code.  At line 395-398

    let realEventPage =
      currentUrl.includes(`/event/${eventId}`) &&
      !/verify you are human|.../i.test(pageContent);

if the URL check succeeds, evaluating the right conjunct reads the undeclared
`pageContent` and throws a `ReferenceError`; if it fails, `&&`
short-circuits, `realEventPage` is `false`, and the reload branch reaches
line 408, `pageContent = await page.content()`, whose strict-mode assignment
to an undeclared identifier also throws a `ReferenceError`.  The outer
`catch` (line 570) re-throws.  Every execution that passes the bot gate and
the consent click therefore throws, and lines 416-569 (the second captcha
chance, the `botCheck: true` return, the empty-extraction return, the cache
write, the success return and the emit) are dead code. -/

/-- Page state a bot-gate iteration observes once its loading wait resolves:
the captcha checkbox (line 329), the block-page marker (line 342), or
neither (ready, line 351). -/
inductive GateObs where
  | captcha
  | blocked
  | ready
deriving DecidableEq

/-- Externally visible effects of one fetch cycle. -/
inductive Effect where
  | launchBrowser
  | newPage
  | navigate (url : String)
  | screenshot (name : String)
  | clickCaptcha
  | pressF5
  | clickAccept
  | pageReload
  | extractStadium
  | extractTickets
  | networkCapture
deriving DecidableEq

/-- One `networkDataCache` entry (lines 531-537): `{data, timestamp}`, where
the service stores the captured network payload as `data`. -/
structure CacheEntry where
  data : JsVal
  timestamp : Nat

/-- The module-level mutable state the reachable paths read: the
`networkDataCache` map. -/
structure ServiceState where
  networkDataCache : List (String × CacheEntry)

/-- Outcomes of the browser-level interactions of one cycle. -/
structure World where
  now : Nat
  navOk : Nat → Bool
  gateObs : Nat → GateObs
  acceptAppears : Bool
  urlAfterAccept : String

/-- Errors `fetchAvailableTickets` can throw on its reachable paths. -/
inductive FetchErr where
  | invalidUrl
  | navigationError
  | acceptTimeout
  | referenceError (name : String)
deriving DecidableEq

/-- The character class `[A-Z0-9]` under the regex `i` flag. -/
def isAlnumCh (c : Char) : Bool :=
  ('A' ≤ c && c ≤ 'Z') || ('a' ≤ c && c ≤ 'z') || ('0' ≤ c && c ≤ '9')

/-- Case-insensitive character comparison (regex `i` flag). -/
def eqCI (a b : Char) : Bool := a.toLower == b.toLower

/-- Try the pattern `event/` (case-insensitive) followed by a maximal
non-empty `[A-Z0-9]+` run (the capture group) at the current position. -/
def matchEventAt : List Char → Option (List Char)
  | c1 :: c2 :: c3 :: c4 :: c5 :: c6 :: rest =>
    if eqCI c1 'e' && eqCI c2 'v' && eqCI c3 'e' && eqCI c4 'n' && eqCI c5 't' &&
        c6 == '/' then
      let cap := rest.takeWhile isAlnumCh
      if cap.isEmpty then none else some cap
    else none
  | _ => none

/-- Leftmost match, as the regex engine finds it. -/
def findEventId : List Char → Option (List Char)
  | [] => none
  | c :: cs =>
    match matchEventAt (c :: cs) with
    | some cap => some cap
    | none => findEventId cs

/-- Lines 235-236: the capture group of `url.match(/event\/([A-Z0-9]+)/i)`,
or `null`. -/
def extractEventId (url : String) : Option String :=
  (findEventId url.data).map (fun cs => String.mk cs)

/-- The bot-gate loop (lines 310-352).  `fuel` counts the remaining loop
tests (`maxAttempts - attempt`), so fuel 0 is the exhausted loop condition.
`obs i` is the page state during iteration `i + 1`; each iteration takes the
post-load screenshot, then either clicks the captcha checkbox, presses F5 on
the block page (both re-entering the loop), or sets `passed`.  Returns the
final `attempt` counter, the `passed` flag and the effect trace. -/
def gateLoop (obs : Nat → GateObs) : Nat → Nat → Nat × Bool × List Effect
  | attempt, 0 => (attempt, false, [])
  | attempt, fuel + 1 =>
    let shot := Effect.screenshot ("after_full_load_attempt_" ++ toString (attempt + 1))
    match obs attempt with
    | GateObs.captcha =>
      let rest := gateLoop obs (attempt + 1) fuel
      (rest.1, rest.2.1, shot :: Effect.clickCaptcha ::
        Effect.screenshot ("after_bot_checkbox_click_attempt_" ++ toString (attempt + 1)) ::
        rest.2.2)
    | GateObs.blocked =>
      let rest := gateLoop obs (attempt + 1) fuel
      (rest.1, rest.2.1, shot :: Effect.pressF5 ::
        Effect.screenshot ("after_block_reload_attempt_" ++ toString (attempt + 1)) ::
        rest.2.2)
    | GateObs.ready => (attempt + 1, true, [shot])

/-- The navigation retry loop (lines 278-307): up to `maxRetries = 3`
`page.goto` attempts; each failure captures a diagnostic screenshot; the
last failure re-throws the navigation error. -/
def navLoop (w : World) (url : String) : Nat → Nat → Bool × List Effect
  | _, 0 => (false, [])
  | retryCount, fuel + 1 =>
    if w.navOk retryCount then (true, [Effect.navigate url])
    else
      let rest := navLoop w url (retryCount + 1) fuel
      (rest.1, Effect.navigate url ::
        Effect.screenshot ("navigation_failed_attempt_" ++ toString (retryCount + 1)) ::
        rest.2)

/-- The non-throwing bot-gate failure payload (lines 359-366). -/
def gateFailedResult (eventId : String) : JsVal :=
  JsVal.obj [("eventId", JsVal.str eventId), ("tickets", JsVal.arr []),
    ("stadiumData", JsVal.null), ("networkData", JsVal.null),
    ("status", JsVal.str "failed"),
    ("reason", JsVal.str "Bot check or block page not passed")]

/-- The browser portion of the pipeline, entered after the cache check
(lines 253-578).  The loading waits that the model treats as resolving are
the `waitForFunction` calls; a page that never stops loading would surface
as a thrown timeout instead, which none of the claims concern.  After the
consent click, both arms of the URL/content validation throw the
`pageContent` `ReferenceError` (see the section comment): evaluating the
bot-phrase test when the URL still contains `/event/<id>`, or the reload
branch's assignment after the URL check fails. -/
def runPipelineModel (w : World) (url eventId : String) :
    Except FetchErr JsVal × List Effect :=
  let pre : List Effect := [Effect.launchBrowser, Effect.newPage]
  let nav := navLoop w url 0 3
  if nav.1 = false then
    (Except.error FetchErr.navigationError, pre ++ nav.2)
  else
    let gate := gateLoop w.gateObs 0 3
    if gate.2.1 = false then
      (Except.ok (gateFailedResult eventId),
        pre ++ nav.2 ++ gate.2.2 ++ [Effect.screenshot "final_failed_status"])
    else if w.acceptAppears = false then
      (Except.error FetchErr.acceptTimeout, pre ++ nav.2 ++ gate.2.2)
    else
      let postAccept : List Effect :=
        [Effect.screenshot "accept_and_continue_modal", Effect.clickAccept,
          Effect.screenshot "full_page_loaded_after_accept"]
      if containsSubstr w.urlAfterAccept ("/event/" ++ eventId) then
        (Except.error (FetchErr.referenceError "pageContent"),
          pre ++ nav.2 ++ gate.2.2 ++ postAccept)
      else
        (Except.error (FetchErr.referenceError "pageContent"),
          pre ++ nav.2 ++ gate.2.2 ++ postAccept ++
            [Effect.screenshot "not_real_event_first_load", Effect.pageReload])

/-- `fetchAvailableTickets(url)` (lines 231-578): extract the event id (throw
`invalidUrl` before any browser work if absent), then the cache check (lines
244-251: a hit younger than 5000 ms returns `cachedData.data` immediately —
`Date.now() - timestamp` is negative, hence `< 5000`, for a future
timestamp, which truncated `Nat` subtraction models the same way), then the
browser pipeline.  No reachable path writes the cache (the write at line 533
lies beyond the `pageContent` throw). -/
def fetchAvailableTicketsModel (w : World) (st : ServiceState) (url : String) :
    Except FetchErr JsVal × List Effect :=
  match extractEventId url with
  | none => (Except.error FetchErr.invalidUrl, [])
  | some eventId =>
    match jsMapGet st.networkDataCache eventId with
    | some entry =>
      if w.now - entry.timestamp < 5000 then (Except.ok entry.data, [])
      else runPipelineModel w url eventId
    | none => runPipelineModel w url eventId

/-- Field access on a JS object value (`result.tickets` etc.). -/
def lookupField (v : JsVal) (k : String) : Option JsVal :=
  match v with
  | JsVal.obj fields => jsMapGet fields k
  | _ => none

/-- C6: for every sequence of adversarial page states, the bot-gate loop
terminates within at most 3 loading/challenge/block iterations, and its
outcome is the passed (ready) state exactly when one of the three observed
page states is ready — otherwise the failed outcome of line 354 is taken. -/
theorem c6_gate_terminates (obs : Nat → GateObs) :
    (gateLoop obs 0 3).1 ≤ 3 ∧
    ((gateLoop obs 0 3).2.1 = true ↔
      (obs 0 = GateObs.ready ∨ obs 1 = GateObs.ready ∨ obs 2 = GateObs.ready)) := by
  cases h0 : obs 0 <;> cases h1 : obs 1 <;> cases h2 : obs 2 <;>
    simp [gateLoop, h0, h1, h2]

theorem takeWhile_all (p : Char → Bool) (l : List Char) :
    (l.takeWhile p).all p = true := by
  induction l with
  | nil => rfl
  | cons c cs ih =>
    rw [List.takeWhile_cons]
    by_cases h : p c <;> simp [h, ih]

theorem head?_dropWhile_false (p : Char → Bool) (l : List Char) :
    ∀ c, (l.dropWhile p).head? = some c → p c = false := by
  induction l with
  | nil => intro c h; simp at h
  | cons x xs ih =>
    intro c h
    rw [List.dropWhile_cons] at h
    by_cases hp : p x
    · rw [if_pos hp] at h
      exact ih c h
    · rw [if_neg hp] at h
      simp only [List.head?_cons, Option.some.injEq] at h
      rw [← h]
      exact Bool.eq_false_iff.mpr hp

theorem matchEventAt_sound (cs cap : List Char) (h : matchEventAt cs = some cap) :
    ∃ ev post, cs = ev ++ cap ++ post ∧
      ev.map Char.toLower = "event/".data ∧ cap ≠ [] ∧
      cap.all isAlnumCh = true ∧
      (∀ c, post.head? = some c → isAlnumCh c = false) := by
  rcases cs with _ | ⟨c1, _ | ⟨c2, _ | ⟨c3, _ | ⟨c4, _ | ⟨c5, _ | ⟨c6, rest⟩⟩⟩⟩⟩⟩ <;>
    simp only [matchEventAt] at h <;>
    try exact Option.noConfusion h
  by_cases hc : (eqCI c1 'e' && eqCI c2 'v' && eqCI c3 'e' && eqCI c4 'n' &&
      eqCI c5 't' && (c6 == '/')) = true
  · rw [if_pos hc] at h
    by_cases hemp : (rest.takeWhile isAlnumCh).isEmpty
    · rw [if_pos hemp] at h
      exact absurd h (by simp)
    · rw [if_neg hemp] at h
      simp only [Option.some.injEq] at h
      subst h
      simp only [Bool.and_eq_true, eqCI, beq_iff_eq] at hc
      obtain ⟨⟨⟨⟨⟨h1, h2⟩, h3⟩, h4⟩, h5⟩, h6⟩ := hc
      refine ⟨[c1, c2, c3, c4, c5, c6], rest.dropWhile isAlnumCh, ?_, ?_, ?_, ?_, ?_⟩
      · simp [List.takeWhile_append_dropWhile]
      · subst h6
        simp only [List.map_cons, List.map_nil, h1, h2, h3, h4, h5]
        decide
      · intro hne
        rw [← List.isEmpty_iff] at hne
        exact hemp hne
      · exact takeWhile_all _ _
      · exact head?_dropWhile_false _ _
  · rw [if_neg hc] at h
    exact absurd h (by simp)

theorem findEventId_sound (cs cap : List Char) (h : findEventId cs = some cap) :
    ∃ pre ev post, cs = pre ++ ev ++ cap ++ post ∧
      ev.map Char.toLower = "event/".data ∧ cap ≠ [] ∧
      cap.all isAlnumCh = true ∧
      (∀ c, post.head? = some c → isAlnumCh c = false) := by
  induction cs with
  | nil => exact absurd h (by simp [findEventId])
  | cons c cs ih =>
    rw [findEventId] at h
    cases hm : matchEventAt (c :: cs) with
    | some cap2 =>
      rw [hm] at h
      simp only [Option.some.injEq] at h
      subst h
      rcases matchEventAt_sound _ _ hm with ⟨ev, post, hsplit, hev, hne, hall, hpost⟩
      exact ⟨[], ev, post, by simpa using hsplit, hev, hne, hall, hpost⟩
    | none =>
      rw [hm] at h
      rcases ih h with ⟨pre, ev, post, hsplit, hev, hne, hall, hpost⟩
      exact ⟨c :: pre, ev, post, by simp [hsplit], hev, hne, hall, hpost⟩

/-- C9: identifier extraction.  (1) On the repository's own example URL the
extracted identifier is `1E00625CD153457B`.  (2) Whenever extraction
succeeds, the identifier is the non-empty maximal alphanumeric segment
following an occurrence of `event/` in the URL.  (3) Whenever no such
segment exists, the call throws the invalid-URL error with an empty effect
trace — before any browser acquisition, navigation, or extraction. -/
theorem c9_eventId_extraction :
    (extractEventId "https://www.ticketmaster.com/denver-broncos-vs-tennessee-titans-denver-colorado-09-07-2025/event/1E00625CD153457B"
      = some "1E00625CD153457B") ∧
    (∀ url id, extractEventId url = some id → id ≠ "" ∧
      id.data.all isAlnumCh = true ∧
      ∃ pre ev post, url.data = pre ++ ev ++ id.data ++ post ∧
        ev.map Char.toLower = "event/".data ∧
        (∀ c, post.head? = some c → isAlnumCh c = false)) ∧
    (∀ w st url, extractEventId url = none →
      fetchAvailableTicketsModel w st url = (Except.error FetchErr.invalidUrl, [])) := by
  refine ⟨rfl, ?_, ?_⟩
  · intro url id hid
    rcases Option.map_eq_some'.mp hid with ⟨cs, hfind, hmk⟩
    rcases findEventId_sound _ _ hfind with ⟨pre, ev, post, hsplit, hev, hne, hall, hpost⟩
    have hdata : id.data = cs := by rw [← hmk]
    refine ⟨?_, by rw [hdata]; exact hall, pre, ev, post, by rw [hdata]; exact hsplit,
      hev, hpost⟩
    intro hempty
    apply hne
    rw [← hdata, hempty]
  · intro w st url hnone
    unfold fetchAvailableTicketsModel
    rw [hnone]

/-- Concrete instance of `c9_eventId_extraction`: a URL without an
`event/<id>` segment throws before any browser work, and the example URL's
identifier is alphanumeric and non-empty. -/
theorem c9_eventId_extraction_witness :
    (fetchAvailableTicketsModel ⟨0, fun _ => true, fun _ => GateObs.ready, true, ""⟩
        ⟨[]⟩ "https://www.ticketmaster.com/no-identifier-here" =
      (Except.error FetchErr.invalidUrl, [])) ∧
    ("1E00625CD153457B" ≠ "" ∧
      "1E00625CD153457B".data.all isAlnumCh = true) :=
  ⟨c9_eventId_extraction.2.2 _ _ _ rfl,
   (c9_eventId_extraction.2.1 _ _ c9_eventId_extraction.1).1,
   (c9_eventId_extraction.2.1 _ _ c9_eventId_extraction.1).2.1⟩

/-- C1 (amended): for every event identifier with a cache entry younger than
5000 ms, the call short-circuits the whole pipeline — no browser
acquisition, navigation, extraction or diagnostic captures (the effect trace
is empty) — and returns the cached entry's `data` field verbatim.  The
service populates `data` with the captured network payload only (line 533),
not with the full result object. -/
theorem c1_cache_hit_short_circuit (w : World) (st : ServiceState)
    (url eventId : String) (entry : CacheEntry)
    (hid : extractEventId url = some eventId)
    (hentry : jsMapGet st.networkDataCache eventId = some entry)
    (hfresh : w.now - entry.timestamp < 5000) :
    fetchAvailableTicketsModel w st url = (Except.ok entry.data, []) := by
  unfold fetchAvailableTicketsModel
  simp only [hid, hentry]
  rw [if_pos hfresh]

/-- A bare network payload as the service would cache it: no `eventId`, no
`tickets`, no `stadiumData` fields. -/
def cachedPayloadExample : JsVal :=
  JsVal.obj [("offers", JsVal.arr []), ("facets", JsVal.arr [])]

/-- Cache state holding that payload for the example event, captured at
t = 1000 ms. -/
def cacheStateExample : ServiceState :=
  ⟨[("1E00625CD153457B", ⟨cachedPayloadExample, 1000⟩)]⟩

/-- A world whose clock reads t = 2000 ms (the entry is 1000 ms old). -/
def worldCacheHit : World :=
  ⟨2000, fun _ => true, fun _ => GateObs.ready, true,
    "https://www.ticketmaster.com/x/event/1E00625CD153457B"⟩

/-- C1 counterexample: on a fresh cache hit the call returns the cached
network payload itself; that value carries no `eventId` and no `tickets`
field, so it is not the previously computed full result object
`{eventId, tickets, stadiumData, networkData, timestamp}` the claim
promises. -/
theorem c1_cache_counterexample :
    (fetchAvailableTicketsModel worldCacheHit cacheStateExample
        "https://www.ticketmaster.com/x/event/1E00625CD153457B" =
      (Except.ok cachedPayloadExample, [])) ∧
    lookupField cachedPayloadExample "eventId" = none ∧
    lookupField cachedPayloadExample "tickets" = none :=
  ⟨rfl, rfl, rfl⟩

/-- Concrete instance of `c1_cache_hit_short_circuit` at `worldCacheHit`. -/
theorem c1_cache_hit_short_circuit_witness :
    fetchAvailableTicketsModel worldCacheHit cacheStateExample
        "https://www.ticketmaster.com/x/event/1E00625CD153457B" =
      (Except.ok cachedPayloadExample, []) :=
  c1_cache_hit_short_circuit worldCacheHit cacheStateExample _ "1E00625CD153457B"
    ⟨cachedPayloadExample, 1000⟩ rfl rfl (by decide)

/-- A world whose bot gate never clears: block page at every iteration. -/
def worldGateFail : World :=
  ⟨0, fun _ => true, fun _ => GateObs.blocked, true,
    "https://www.ticketmaster.com/x/event/1E00625CD153457B"⟩

/-- A world for the normal post-gate flow: navigation succeeds first try,
the gate is ready at once, the consent button appears, and the page is still
on the real event URL at validation time. -/
def worldValidationOnEvent : World :=
  ⟨0, fun _ => true, fun _ => GateObs.ready, true,
    "https://www.ticketmaster.com/x/event/1E00625CD153457B"⟩

/-- The same flow, except the page has been redirected off the event URL at
validation time. -/
def worldValidationOffEvent : World :=
  ⟨0, fun _ => true, fun _ => GateObs.ready, true,
    "https://auth.ticketmaster.com/verify"⟩

/-- C3: gate failure does return the non-throwing `status: "failed"` payload,
but every cycle that reaches the final URL/content validation throws a
`ReferenceError` on the undeclared `pageContent` instead of returning the
`botCheck: true` empty payload — when the page is on the real event URL the
bot-phrase test at line 397 reads `pageContent`, and when it is not, the
reload branch's line 408 assigns it (strict mode). -/
theorem c3_validation_throws :
    ((fetchAvailableTicketsModel worldGateFail ⟨[]⟩
        "https://www.ticketmaster.com/x/event/1E00625CD153457B").1 =
      Except.ok (gateFailedResult "1E00625CD153457B")) ∧
    ((fetchAvailableTicketsModel worldValidationOnEvent ⟨[]⟩
        "https://www.ticketmaster.com/x/event/1E00625CD153457B").1 =
      Except.error (FetchErr.referenceError "pageContent")) ∧
    ((fetchAvailableTicketsModel worldValidationOffEvent ⟨[]⟩
        "https://www.ticketmaster.com/x/event/1E00625CD153457B").1 =
      Except.error (FetchErr.referenceError "pageContent")) :=
  ⟨rfl, rfl, rfl⟩

end JasonChecker
